import Mathlib

set_option maxHeartbeats 1000000

/-!
Verification of the payment core of the Masumi OpenClaw plugin.

The definitions below embed the payment lifecycle engine of
`src/managers/payment.ts` (class PaymentManager). The canonical hasher of
`src/utils/hashing.ts` is not present in the provided sources (only its
callers and re-exports are), so it is modelled from section 4.1 of the
specification.
-/

/-- Structured JSON-like payload values. Numbers are modelled as integers,
matching the stable number formatting the specification requires. -/
inductive Json where
  | null : Json
  | bool (b : Bool) : Json
  | num (n : Int) : Json
  | str (s : String) : Json
  | arr (elems : List Json) : Json
  | obj (entries : List (String × Json)) : Json
deriving Repr

/-- Escape of one character inside a JSON string literal. -/
def jsonEscapeChar (c : Char) : List Char :=
  if c = '"' then ['\\', '"']
  else if c = '\\' then ['\\', '\\']
  else [c]

/-- Rendering of a JSON string literal. -/
def jsonQuote (s : String) : String :=
  "\"" ++ String.mk (s.data.flatMap jsonEscapeChar) ++ "\""

/-- Ordering of serialized object entries by key (lexicographic on strings). -/
def entryLe (a b : String × String) : Prop := a.1 ≤ b.1

instance : DecidableRel entryLe := fun a b => inferInstanceAs (Decidable (a.1 ≤ b.1))

instance : IsTotal (String × String) entryLe := ⟨fun a b => le_total a.1 b.1⟩

instance : IsTrans (String × String) entryLe := ⟨fun _ _ _ hab hbc => le_trans hab hbc⟩

/-- Lexicographic sort of serialized object entries by key. -/
def sortEntries (l : List (String × String)) : List (String × String) :=
  List.insertionSort entryLe l

/-- Rendering of one serialized object entry. -/
def renderEntry (kv : String × String) : String := jsonQuote kv.1 ++ ":" ++ kv.2

mutual
/-- Modelled from the spec: canonical JSON serialization from section 4.1 of
the specification, standing in for `src/utils/hashing.ts`, which is absent
from the provided sources. Mapping keys are sorted lexicographically at
every nesting level, no insignificant whitespace is produced, and numbers
are rendered as integers. -/
def serializeJson : Json → String
  | .null => "null"
  | .bool b => cond b "true" "false"
  | .num n => toString n
  | .str s => jsonQuote s
  | .arr elems => "[" ++ String.intercalate "," (serializeList elems) ++ "]"
  | .obj entries =>
      "\x7b" ++
        String.intercalate "," ((sortEntries (serializeEntries entries)).map renderEntry) ++
        "\x7d"

/-- Serialization of a list of payload values. -/
def serializeList : List Json → List String
  | [] => []
  | x :: xs => serializeJson x :: serializeList xs

/-- Serialization of the values of object entries, keys kept. -/
def serializeEntries : List (String × Json) → List (String × String)
  | [] => []
  | (k, v) :: rest => (k, serializeJson v) :: serializeEntries rest
end

/-- UTF-8 encoding of one character as byte values. -/
def utf8EncodeChar (c : Char) : List Nat :=
  let n := c.toNat
  if n < 128 then [n]
  else if n < 2048 then [192 + n / 64, 128 + n % 64]
  else if n < 65536 then [224 + n / 4096, 128 + n / 64 % 64, 128 + n % 64]
  else [240 + n / 262144, 128 + n / 4096 % 64, 128 + n / 64 % 64, 128 + n % 64]

/-- UTF-8 bytes of a string. -/
def strBytes (s : String) : List Nat := s.data.flatMap utf8EncodeChar

/-- Addition of 32-bit words modulo 4294967296. -/
def add32 (a b : Nat) : Nat := (a + b) % 4294967296

/-- Right rotation of a 32-bit word by n bits. -/
def rotr32 (n x : Nat) : Nat :=
  (x / 2 ^ n + x % 2 ^ n * 2 ^ (32 - n)) % 4294967296

/-- Bitwise complement of a 32-bit word. -/
def not32 (x : Nat) : Nat := 4294967295 - x % 4294967296

/-- Primality by trial division, for the small primes the constants need. -/
def isPrimeNat (n : Nat) : Bool :=
  decide (2 ≤ n) && (((List.range n).drop 2).all fun d => n % d != 0)

/-- First 64 prime numbers. -/
def first64Primes : List Nat := ((List.range 400).filter isPrimeNat).take 64

/-- Integer cube root by descending-bit search. -/
def icbrt (n : Nat) : Nat :=
  (List.range 64).foldl
    (fun acc i =>
      let cand := acc + 2 ^ (63 - i)
      if cand * cand * cand ≤ n then cand else acc) 0

/-- Round constants of SHA-256: fractional parts of the cube roots of the
first 64 primes, scaled to 32 bits. -/
def shaK : List Nat := first64Primes.map fun p => icbrt (p * 2 ^ 96) % 4294967296

/-- Initial word of SHA-256 for one prime: fractional part of its square
root, scaled to 32 bits. -/
def shaH0 (p : Nat) : Nat := Nat.sqrt (p * 2 ^ 64) % 4294967296

/-- Compression state of SHA-256: eight 32-bit words. -/
structure Sha256State where
  a : Nat
  b : Nat
  c : Nat
  d : Nat
  e : Nat
  f : Nat
  g : Nat
  h : Nat
deriving Repr

/-- Initial hash values of SHA-256: fractional parts of the square roots of
the first 8 primes, scaled to 32 bits. -/
def shaInit : Sha256State :=
  ⟨shaH0 2, shaH0 3, shaH0 5, shaH0 7, shaH0 11, shaH0 13, shaH0 17, shaH0 19⟩

/-- One round of the SHA-256 compression function. -/
def shaRound (st : Sha256State) (kw : Nat × Nat) : Sha256State :=
  let s1 := rotr32 6 st.e ^^^ rotr32 11 st.e ^^^ rotr32 25 st.e
  let ch := (st.e &&& st.f) ^^^ (not32 st.e &&& st.g)
  let temp1 := (st.h + s1 + ch + kw.1 + kw.2) % 4294967296
  let s0 := rotr32 2 st.a ^^^ rotr32 13 st.a ^^^ rotr32 22 st.a
  let maj := (st.a &&& st.b) ^^^ (st.a &&& st.c) ^^^ (st.b &&& st.c)
  let temp2 := (s0 + maj) % 4294967296
  ⟨(temp1 + temp2) % 4294967296, st.a, st.b, st.c, (st.d + temp1) % 4294967296, st.e, st.f,
   st.g⟩

/-- Extension of the message schedule, one word per step. -/
def extendSchedule : Nat → List Nat → List Nat
  | 0, ws => ws
  | k + 1, ws =>
      let i := ws.length
      let w15 := ws.getD (i - 15) 0
      let w2 := ws.getD (i - 2) 0
      let s0 := rotr32 7 w15 ^^^ rotr32 18 w15 ^^^ (w15 / 8)
      let s1 := rotr32 17 w2 ^^^ rotr32 19 w2 ^^^ (w2 / 1024)
      extendSchedule k (ws ++ [(ws.getD (i - 16) 0 + s0 + ws.getD (i - 7) 0 + s1) % 4294967296])

/-- Sixteen big-endian words of one 64-byte block. -/
def blockWords (block : List Nat) : List Nat :=
  (List.range 16).map fun i =>
    block.getD (4 * i) 0 * 16777216 + block.getD (4 * i + 1) 0 * 65536 +
      block.getD (4 * i + 2) 0 * 256 + block.getD (4 * i + 3) 0

/-- Compression of one 64-byte block into the running state. -/
def compressBlock (st : Sha256State) (block : List Nat) : Sha256State :=
  let ws := extendSchedule 48 (blockWords block)
  let t := (shaK.zip ws).foldl shaRound st
  ⟨add32 st.a t.a, add32 st.b t.b, add32 st.c t.c, add32 st.d t.d, add32 st.e t.e,
   add32 st.f t.f, add32 st.g t.g, add32 st.h t.h⟩

/-- Big-endian eight-byte rendering of the bit length. -/
def lenBytes (n : Nat) : List Nat :=
  [n / 72057594037927936 % 256, n / 281474976710656 % 256, n / 1099511627776 % 256,
   n / 4294967296 % 256, n / 16777216 % 256, n / 65536 % 256, n / 256 % 256, n % 256]

/-- Padding of the message per the SHA-256 standard. -/
def padMessage (msg : List Nat) : List Nat :=
  msg ++ [128] ++ List.replicate ((64 - (msg.length + 9) % 64) % 64) 0 ++
    lenBytes (msg.length * 8)

/-- Splitting into 64-byte blocks. -/
def chunks64 (l : List Nat) : List (List Nat) :=
  if h : l = [] then [] else l.take 64 :: chunks64 (l.drop 64)
termination_by l.length
decreasing_by
  have hp : 0 < l.length := List.length_pos.mpr h
  simp only [List.length_drop]
  omega

/-- Four big-endian bytes of a 32-bit word. -/
def wordBytes (w : Nat) : List Nat :=
  [w / 16777216 % 256, w / 65536 % 256, w / 256 % 256, w % 256]

/-- Modelled from the spec: SHA-256 digest bytes of a byte sequence, the
256-bit hash that section 4.1 of the specification requires of
`src/utils/hashing.ts`, which is absent from the provided sources. -/
def sha256 (msg : List Nat) : List Nat :=
  let fin := (chunks64 (padMessage msg)).foldl compressBlock shaInit
  wordBytes fin.a ++ wordBytes fin.b ++ wordBytes fin.c ++ wordBytes fin.d ++
    wordBytes fin.e ++ wordBytes fin.f ++ wordBytes fin.g ++ wordBytes fin.h

/-- Lowercase hexadecimal digit characters, in value order. -/
def hexDigits : List Char := "0123456789abcdef".data

/-- Lowercase hexadecimal digit character of a nibble. -/
def hexDigitChar (n : Nat) : Char := hexDigits.getD n 'f'

/-- Lowercase hex string of a byte list. -/
def toHex (bs : List Nat) : String :=
  String.mk (bs.flatMap fun b => [hexDigitChar (b / 16), hexDigitChar (b % 16)])

/-- Separator between serialized payload and salt. The specification states
that a separator joins them and leaves its spelling to
`src/utils/hashing.ts`, which is absent from the provided sources. -/
def hashSeparator : String := "|"

/-- Verbatim use of string payloads per section 4.1 of the specification. -/
def canonicalPayloadString : Json → String
  | .str s => s
  | j => serializeJson j

/-- Modelled from the spec: the canonical hash contract of section 4.1.
String payloads are used verbatim, other payloads are canonically
serialized, and the digest is SHA-256 of serialization, separator and salt,
rendered as 64 lowercase hex characters. -/
def masumiHash (payload : Json) (salt : String) : String :=
  toHex (sha256 (strBytes (canonicalPayloadString payload ++ hashSeparator ++ salt)))

/-- Modelled from the spec: the input hash used by createPaymentRequest. -/
def createMasumiInputHash (inputData : Json) (identifierFromPurchaser : String) : String :=
  masumiHash inputData identifierFromPurchaser

/-- Modelled from the spec: the result hash used by submitResult. The output
payload is already a string and is hashed verbatim. -/
def createMasumiOutputHash (outputData : String) (identifierFromPurchaser : String) : String :=
  masumiHash (Json.str outputData) identifierFromPurchaser

/-- On-chain states of a payment, from the vocabulary of the remote ledger. -/
inductive PaymentState where
  | WaitingForExternalAction
  | FundsLocked
  | ResultSubmitted
  | Withdrawn
  | RefundWithdrawn
  | DisputedWithdrawn
deriving DecidableEq, Repr

/-- Payment entity cached by the manager, with the fields
`src/managers/payment.ts` consumes. Times are millisecond timestamps. -/
structure PaymentRequest where
  blockchainIdentifier : String
  identifierFromPurchaser : String
  onChainState : Option PaymentState
  payByTime : Nat
  submitResultTime : Nat
  nextActionRequested : String
  requestedFunds : List (String × String)
deriving DecidableEq, Repr

/-- Plugin configuration fields consumed by the payment manager. -/
structure MasumiPluginConfig where
  network : String
  agentIdentifier : Option String
  sellerVkey : Option String
deriving DecidableEq, Repr

/-- Falsiness of an optional string as JavaScript sees it: undefined and the
empty string are falsy. -/
def optFalsy : Option String → Bool
  | none => true
  | some s => s == ""

/-- Conditional spread of an optional string under a JavaScript truthiness
guard, as in the payload construction of createPaymentRequest. -/
def optTruthy : Option String → Option String
  | none => none
  | some s => if s = "" then none else some s

/-- Lookup in an association list modelling a JavaScript Map. -/
def mapGet (m : List (String × PaymentRequest)) (k : String) : Option PaymentRequest :=
  match m with
  | [] => none
  | (k₁, v) :: rest => if k₁ = k then some v else mapGet rest k

/-- Map.set semantics: replace in place when the key exists, append otherwise. -/
def mapSet (m : List (String × PaymentRequest)) (k : String) (v : PaymentRequest) :
    List (String × PaymentRequest) :=
  match m with
  | [] => [(k, v)]
  | (k₁, v₁) :: rest => if k₁ = k then (k, v) :: rest else (k₁, v₁) :: mapSet rest k v

/-- State of one PaymentManager instance. -/
structure ManagerState where
  config : MasumiPluginConfig
  pendingPayments : List (String × PaymentRequest)
  isMonitoring : Bool
  statusMonitorInterval : Option Nat
deriving DecidableEq, Repr

/-- Errors raised by the payment manager, per the taxonomy of section 7. -/
inductive MErr where
  | notProvisioned
  | unknownPayment (blockchainIdentifier : String)
  | transport (message : String)
deriving DecidableEq, Repr

/-- Events emitted by the payment manager. -/
inductive MEvent where
  | created (payment : PaymentRequest)
  | state_changed (blockchainIdentifier : String) (previousState newState : Option PaymentState)
      (payment : PaymentRequest)
  | funds_locked (payment : PaymentRequest)
  | result_submitted (blockchainIdentifier resultHash : String)
  | completed (payment : PaymentRequest)
  | refund_authorized (blockchainIdentifier : String)
  | monitor_error (blockchainIdentifier : String) (cause : MErr)
deriving DecidableEq, Repr

/-- Request body of the payment creation endpoint. -/
structure CreatePayload where
  agentIdentifier : String
  network : String
  paymentType : String
  payByTime : Nat
  submitResultTime : Nat
  identifierFromPurchaser : String
  inputHash : Option String
  metadata : Option String
deriving DecidableEq, Repr

/-- Remote calls issued over the ApiClient, with their payloads. -/
inductive RemoteCall where
  | createPayment (payload : CreatePayload)
  | resolveIdentifier (blockchainIdentifier network : String)
  | submitResultCall (blockchainIdentifier network resultHash : String)
  | authorizeRefundCall (blockchainIdentifier network : String)
deriving DecidableEq, Repr

instance {ε α : Type} [DecidableEq ε] [DecidableEq α] : DecidableEq (Except ε α)
  | .error x, .error y =>
      if h : x = y then isTrue (congrArg Except.error h)
      else isFalse fun hc => h (by cases hc; rfl)
  | .ok x, .ok y =>
      if h : x = y then isTrue (congrArg Except.ok h)
      else isFalse fun hc => h (by cases hc; rfl)
  | .error _, .ok _ => isFalse fun hc => by cases hc
  | .ok _, .error _ => isFalse fun hc => by cases hc

/-- Result of one manager operation: returned value or error, the state after
the call, the events emitted, and the remote calls issued. -/
structure OpResult where
  result : Except MErr PaymentRequest
  state : ManagerState
  events : List MEvent
  calls : List RemoteCall
deriving DecidableEq, Repr

/-- Parameters of createPaymentRequest. -/
structure CreatePaymentParams where
  identifierFromPurchaser : String
  inputData : Option Json
  payByTime : Option Nat
  submitResultTime : Option Nat
  metadata : Option String

/-- Embedding of PaymentManager.createPaymentRequest (payment.ts lines 78 to
129). The current time and the remote response are explicit parameters. -/
def createPaymentRequest (st : ManagerState) (params : CreatePaymentParams) (now : Nat)
    (remote : CreatePayload → Except String PaymentRequest) : OpResult :=
  if optFalsy st.config.agentIdentifier then
    ⟨.error .notProvisioned, st, [], []⟩
  else
    let inputHash := params.inputData.map
      (fun d => createMasumiInputHash d params.identifierFromPurchaser)
    let payBy := params.payByTime.getD (now + 43200000)
    let submitBy := params.submitResultTime.getD (now + 86400000)
    let payload : CreatePayload :=
      ⟨st.config.agentIdentifier.getD "", st.config.network, "Web3CardanoV1", payBy, submitBy,
       params.identifierFromPurchaser, inputHash, optTruthy params.metadata⟩
    match remote payload with
    | .error e => ⟨.error (.transport e), st, [], [.createPayment payload]⟩
    | .ok r =>
        ⟨.ok r,
         { st with pendingPayments := mapSet st.pendingPayments r.blockchainIdentifier r },
         [.created r], [.createPayment payload]⟩

/-- Embedding of PaymentManager.checkPaymentStatus (payment.ts lines 146 to
183), the refreshStatus operation; the remote response is an explicit
parameter. -/
def checkPaymentStatus (st : ManagerState) (blockchainIdentifier : String)
    (resp : Except String PaymentRequest) : OpResult :=
  match resp with
  | .error e =>
      ⟨.error (.transport e), st, [],
       [.resolveIdentifier blockchainIdentifier st.config.network]⟩
  | .ok r =>
      let previousState := (mapGet st.pendingPayments blockchainIdentifier).bind
        (fun p => p.onChainState)
      let st₁ := { st with pendingPayments := mapSet st.pendingPayments blockchainIdentifier r }
      let events :=
        if previousState = r.onChainState then []
        else
          MEvent.state_changed blockchainIdentifier previousState r.onChainState r ::
            (if r.onChainState = some .FundsLocked then [MEvent.funds_locked r]
             else if r.onChainState = some .Withdrawn then [MEvent.completed r] else [])
      ⟨.ok r, st₁, events, [.resolveIdentifier blockchainIdentifier st.config.network]⟩

/-- Embedding of PaymentManager.submitResult (payment.ts lines 204 to 241). -/
def submitResult (st : ManagerState) (blockchainIdentifier : String) (outputData : String)
    (resp : Except String PaymentRequest) : OpResult :=
  match mapGet st.pendingPayments blockchainIdentifier with
  | none => ⟨.error (.unknownPayment blockchainIdentifier), st, [], []⟩
  | some payment =>
    let resultHash := createMasumiOutputHash outputData payment.identifierFromPurchaser
    match resp with
    | .error e =>
        ⟨.error (.transport e), st, [],
         [.submitResultCall blockchainIdentifier st.config.network resultHash]⟩
    | .ok r =>
        ⟨.ok r, { st with pendingPayments := mapSet st.pendingPayments blockchainIdentifier r },
         [.result_submitted blockchainIdentifier resultHash],
         [.submitResultCall blockchainIdentifier st.config.network resultHash]⟩

/-- Embedding of PaymentManager.authorizeRefund (payment.ts lines 257 to 274). -/
def authorizeRefund (st : ManagerState) (blockchainIdentifier : String)
    (resp : Except String PaymentRequest) : OpResult :=
  match resp with
  | .error e =>
      ⟨.error (.transport e), st, [],
       [.authorizeRefundCall blockchainIdentifier st.config.network]⟩
  | .ok r =>
      ⟨.ok r, { st with pendingPayments := mapSet st.pendingPayments blockchainIdentifier r },
       [.refund_authorized blockchainIdentifier],
       [.authorizeRefundCall blockchainIdentifier st.config.network]⟩

/-- Embedding of PaymentManager.startStatusMonitoring (payment.ts lines 376 to
406). The timer callback body is modelled by monitorCycle below; here only
the lifecycle flags change. The returned list holds warning log lines. -/
def startStatusMonitoring (st : ManagerState) (intervalMs : Nat) : ManagerState × List String :=
  if st.isMonitoring then (st, ["Payment monitoring already running"])
  else ({ st with isMonitoring := true, statusMonitorInterval := some intervalMs }, [])

/-- Default polling interval of startStatusMonitoring, in milliseconds. -/
def defaultMonitorIntervalMs : Nat := 30000

/-- Embedding of PaymentManager.stopStatusMonitoring (payment.ts lines 411 to
418). -/
def stopStatusMonitoring (st : ManagerState) : ManagerState :=
  if st.statusMonitorInterval.isSome then
    { st with statusMonitorInterval := none, isMonitoring := false }
  else st

/-- Embedding of PaymentManager.getPayment. -/
def getPayment (st : ManagerState) (blockchainIdentifier : String) : Option PaymentRequest :=
  mapGet st.pendingPayments blockchainIdentifier

/-- Terminal states skipped by the monitor (the completedStates list of
payment.ts lines 391 and 447). -/
def isTerminal : Option PaymentState → Bool
  | some .Withdrawn => true
  | some .RefundWithdrawn => true
  | some .DisputedWithdrawn => true
  | _ => false

/-- Result of one polling cycle of the monitor. -/
structure CycleResult where
  state : ManagerState
  events : List MEvent
  refreshed : List String
deriving DecidableEq, Repr

/-- One entry of the polling loop body (payment.ts lines 388 to 403): skip
terminal entries, otherwise refresh and convert a failure into a
monitor_error event. The Boolean reports whether checkPaymentStatus ran. -/
def cycleStep (remote : String → Except String PaymentRequest) (st : ManagerState)
    (id : String) : ManagerState × List MEvent × Bool :=
  match mapGet st.pendingPayments id with
  | none => (st, [], false)
  | some payment =>
    if isTerminal payment.onChainState then (st, [], false)
    else
      let o := checkPaymentStatus st id (remote id)
      match o.result with
      | .ok _ => (o.state, o.events, true)
      | .error e => (o.state, o.events ++ [MEvent.monitor_error id e], true)

/-- Folding of the loop body over a list of tracked identifiers. -/
def runCycle (remote : String → Except String PaymentRequest) (st : ManagerState) :
    List String → CycleResult
  | [] => ⟨st, [], []⟩
  | id :: rest =>
      let s := cycleStep remote st id
      let r := runCycle remote s.1 rest
      ⟨r.state, s.2.1 ++ r.events, (if s.2.2 then [id] else []) ++ r.refreshed⟩

/-- One polling cycle over the entries of the store, in insertion order, as
the setInterval callback of startStatusMonitoring performs it. -/
def monitorCycle (st : ManagerState) (remote : String → Except String PaymentRequest) :
    CycleResult :=
  runCycle remote st (st.pendingPayments.map Prod.fst)

/-- Selector of state_changed events. -/
def isStateChanged : MEvent → Bool
  | .state_changed _ _ _ _ => true
  | _ => false

/-- Selector of funds_locked events. -/
def isFundsLockedEvent : MEvent → Bool
  | .funds_locked _ => true
  | _ => false

/-- Selector of completed events. -/
def isCompletedEvent : MEvent → Bool
  | .completed _ => true
  | _ => false

/-- Selector of monitor_error events. -/
def isMonitorError : MEvent → Bool
  | .monitor_error _ _ => true
  | _ => false

/-- Cached on-chain state of an identifier, as the status check reads it. -/
def cachedState (st : ManagerState) (id : String) : Option PaymentState :=
  (mapGet st.pendingPayments id).bind (fun p => p.onChainState)

/-- Liveness of an identifier in a store: present and not terminal. -/
def liveNonTerminal (st : ManagerState) (id : String) : Bool :=
  match mapGet st.pendingPayments id with
  | none => false
  | some p => !isTerminal p.onChainState

/-- Expected final store value for one identifier after its own cycle step. -/
def cycleOutcome (st : ManagerState) (remote : String → Except String PaymentRequest)
    (id : String) : Option PaymentRequest :=
  match mapGet st.pendingPayments id with
  | none => none
  | some p =>
    if isTerminal p.onChainState then some p
    else
      match remote id with
      | .ok r => some r
      | .error _ => some p

/-- Expected monitor_error event of one identifier in a cycle, when any. -/
def cycleError (st : ManagerState) (remote : String → Except String PaymentRequest)
    (id : String) : Option MEvent :=
  match mapGet st.pendingPayments id with
  | none => none
  | some p =>
    if isTerminal p.onChainState then none
    else
      match remote id with
      | .ok _ => none
      | .error e => some (.monitor_error id (.transport e))

/-- Characterization of lowercase hexadecimal characters. -/
def IsLowerHexChar (c : Char) : Prop := ('0' ≤ c ∧ c ≤ '9') ∨ ('a' ≤ c ∧ c ≤ 'f')

instance (c : Char) : Decidable (IsLowerHexChar c) := by
  unfold IsLowerHexChar; infer_instance

/-- Concrete configuration without an agent identifier, for evaluation. -/
def cfgNoAgent : MasumiPluginConfig := ⟨"Preprod", none, none⟩

/-- Concrete configuration with an agent identifier, for evaluation. -/
def cfgAgent : MasumiPluginConfig := ⟨"Preprod", some "agent1", none⟩

/-- Concrete fresh payment entity, for evaluation. -/
def payA : PaymentRequest := ⟨"idA", "buyerA", some .FundsLocked, 1000, 2000, "None", []⟩

/-- Concrete payment entity in a second state, for evaluation. -/
def payB : PaymentRequest := ⟨"idB", "buyerB", some .FundsLocked, 1000, 2000, "None", []⟩

/-- Concrete payment entity without an observed state, for evaluation. -/
def payC : PaymentRequest := ⟨"idC", "buyerC", none, 1000, 2000, "None", []⟩

/-- Concrete terminal payment entity, for evaluation. -/
def payT : PaymentRequest := ⟨"idT", "buyerT", some .Withdrawn, 1000, 2000, "None", []⟩

/-- Concrete manager state with an empty store, for evaluation. -/
def mgr0 : ManagerState := ⟨cfgAgent, [], false, none⟩

/-- Concrete manager state with three live entries, for evaluation. -/
def mgr3 : ManagerState :=
  ⟨cfgAgent, [("idA", payA), ("idB", payB), ("idC", payC)], true, some 30000⟩

/-- Concrete manager state with one live and one terminal entry, for
evaluation. -/
def mgrT : ManagerState := ⟨cfgAgent, [("idA", payA), ("idT", payT)], true, some 30000⟩

/-- Concrete remote oracle failing exactly on idB, for evaluation. -/
def remoteFailB : String → Except String PaymentRequest := fun id =>
  if id = "idB" then .error "boom"
  else if id = "idA" then .ok payA else .ok payC

/-- Concrete creation parameters with payByTime omitted and submitResultTime
supplied, for evaluation. -/
def paramsW : CreatePaymentParams := ⟨"buyer1", none, none, some 99, none⟩


/-- Lookup after an update at the same key yields the new value. -/
theorem mapGet_mapSet_self (m : List (String × PaymentRequest)) (k : String)
    (v : PaymentRequest) : mapGet (mapSet m k v) k = some v := by
  induction m with
  | nil => simp [mapGet, mapSet]
  | cons kv rest ih =>
      obtain ⟨k₁, v₁⟩ := kv
      by_cases h : k₁ = k <;> simp [mapGet, mapSet, h, ih]

/-- Lookup after an update at a different key is unchanged. -/
theorem mapGet_mapSet_ne (m : List (String × PaymentRequest)) (k k₂ : String)
    (v : PaymentRequest) (h : k₂ ≠ k) : mapGet (mapSet m k v) k₂ = mapGet m k₂ := by
  induction m with
  | nil => simp [mapGet, mapSet, h.symm]
  | cons kv rest ih =>
      obtain ⟨k₁, v₁⟩ := kv
      by_cases h₁ : k₁ = k
      · subst h₁
        simp [mapGet, mapSet, h.symm]
      · by_cases h₂ : k₁ = k₂ <;> simp [mapGet, mapSet, h₁, h₂, h, ih]

/-- A key with a stored value is among the keys of the store. -/
theorem mapGet_some_mem_fst (m : List (String × PaymentRequest)) (k : String)
    (v : PaymentRequest) (h : mapGet m k = some v) : k ∈ m.map Prod.fst := by
  induction m with
  | nil => simp [mapGet] at h
  | cons kv rest ih =>
      obtain ⟨k₁, v₁⟩ := kv
      by_cases h₁ : k₁ = k
      · simp [h₁]
      · simp [mapGet, h₁] at h
        simp [ih h]

/-- C3: submitResult on an identifier absent from the Payment Store fails
with UnknownPayment, issues no remote call and leaves the state unchanged. -/
theorem C3_unknownPayment_guard (st : ManagerState) (id outputData : String)
    (resp : Except String PaymentRequest) (habs : getPayment st id = none) :
    submitResult st id outputData resp = ⟨.error (.unknownPayment id), st, [], []⟩ := by
  have h : mapGet st.pendingPayments id = none := habs
  simp [submitResult, h]

/-- Witness: C3 at a concrete empty store. -/
theorem C3_unknownPayment_guard_witness :
    submitResult mgr0 "idA" "out" (.ok payA) =
      ⟨.error (.unknownPayment "idA"), mgr0, [], []⟩ :=
  C3_unknownPayment_guard mgr0 "idA" "out" (.ok payA) (by decide)

/-- C6: when no agent identity is configured, createPaymentRequest fails with
NotProvisioned, issues no remote call, and leaves the state unchanged. -/
theorem C6_notProvisioned_guard (st : ManagerState) (params : CreatePaymentParams) (now : Nat)
    (remote : CreatePayload → Except String PaymentRequest)
    (hno : optFalsy st.config.agentIdentifier = true) :
    createPaymentRequest st params now remote = ⟨.error .notProvisioned, st, [], []⟩ := by
  simp [createPaymentRequest, hno]

/-- Witness: C6 at a concrete unprovisioned configuration. -/
theorem C6_notProvisioned_guard_witness :
    createPaymentRequest ⟨cfgNoAgent, [], false, none⟩ ⟨"buyer1", none, none, none, none⟩ 0
        (fun _ => .error "never reached") =
      ⟨.error .notProvisioned, ⟨cfgNoAgent, [], false, none⟩, [], []⟩ :=
  C6_notProvisioned_guard _ _ _ _ (by decide)

/-- C7: starting the monitor while it is already active is a no-op that logs
a warning, raises no error, and leaves the state (timer included)
unchanged. -/
theorem C7_start_idempotent (st : ManagerState) (intervalMs : Nat)
    (hactive : st.isMonitoring = true) :
    startStatusMonitoring st intervalMs = (st, ["Payment monitoring already running"]) := by
  simp [startStatusMonitoring, hactive]

/-- Witness: C7 at a concrete active manager state. -/
theorem C7_start_idempotent_witness :
    startStatusMonitoring mgr3 1000 = (mgr3, ["Payment monitoring already running"]) :=
  C7_start_idempotent mgr3 1000 (by decide)

/-- C9: stopping the monitor cancels the timer and leaves the Payment Store
and the configuration unchanged, in any state. -/
theorem C9_stop_frame (st : ManagerState) :
    (stopStatusMonitoring st).pendingPayments = st.pendingPayments ∧
    (stopStatusMonitoring st).statusMonitorInterval = none ∧
    (stopStatusMonitoring st).config = st.config := by
  unfold stopStatusMonitoring
  cases h : st.statusMonitorInterval <;> simp [h]

/-- C10: authorizeRefund checks no store membership: for every identifier,
known to the store or not, it issues the remote call, on success inserts the
returned entity and emits refund_authorized, and never fails with
UnknownPayment. -/
theorem C10_authorizeRefund_unchecked (st : ManagerState) (id : String)
    (resp : Except String PaymentRequest) :
    (authorizeRefund st id resp).calls = [.authorizeRefundCall id st.config.network] ∧
    (∀ r, resp = .ok r →
      authorizeRefund st id resp =
        ⟨.ok r, { st with pendingPayments := mapSet st.pendingPayments id r },
         [.refund_authorized id], [.authorizeRefundCall id st.config.network]⟩) ∧
    (∀ e, resp = .error e →
      authorizeRefund st id resp =
        ⟨.error (.transport e), st, [], [.authorizeRefundCall id st.config.network]⟩) ∧
    (∀ bid, (authorizeRefund st id resp).result ≠ .error (.unknownPayment bid)) := by
  cases resp <;> simp [authorizeRefund]

/-- Witness: C10 at a concrete unknown identifier. -/
theorem C10_authorizeRefund_unchecked_witness :
    authorizeRefund mgr0 "idZ" (.ok payA) =
      ⟨.ok payA, { mgr0 with pendingPayments := mapSet mgr0.pendingPayments "idZ" payA },
       [.refund_authorized "idZ"], [.authorizeRefundCall "idZ" mgr0.config.network]⟩ :=
  (C10_authorizeRefund_unchecked mgr0 "idZ" (.ok payA)).2.1 payA rfl

/-- C8: createPaymentRequest defaults payByTime to now plus 12 hours and
submitResultTime to now plus 24 hours when omitted, and sends supplied
values unchanged, in the single request payload it issues. -/
theorem C8_deadline_defaults (st : ManagerState) (params : CreatePaymentParams) (now : Nat)
    (remote : CreatePayload → Except String PaymentRequest)
    (hagent : optFalsy st.config.agentIdentifier = false) :
    (createPaymentRequest st params now remote).calls =
      [.createPayment
        ⟨st.config.agentIdentifier.getD "", st.config.network, "Web3CardanoV1",
         params.payByTime.getD (now + 12 * 60 * 60 * 1000),
         params.submitResultTime.getD (now + 24 * 60 * 60 * 1000),
         params.identifierFromPurchaser,
         params.inputData.map (fun d => createMasumiInputHash d params.identifierFromPurchaser),
         optTruthy params.metadata⟩] ∧
    (∀ t, params.payByTime = some t →
      params.payByTime.getD (now + 12 * 60 * 60 * 1000) = t) ∧
    (∀ t, params.submitResultTime = some t →
      params.submitResultTime.getD (now + 24 * 60 * 60 * 1000) = t) := by
  refine ⟨?_, by intro t ht; simp [ht], by intro t ht; simp [ht]⟩
  unfold createPaymentRequest
  rw [hagent]
  simp only [Bool.false_eq_true, if_false]
  have h12 : (12 * 60 * 60 * 1000 : Nat) = 43200000 := by norm_num
  have h24 : (24 * 60 * 60 * 1000 : Nat) = 86400000 := by norm_num
  rw [h12, h24]
  cases remote ⟨st.config.agentIdentifier.getD "", st.config.network, "Web3CardanoV1",
      params.payByTime.getD (now + 43200000), params.submitResultTime.getD (now + 86400000),
      params.identifierFromPurchaser,
      params.inputData.map (fun d => createMasumiInputHash d params.identifierFromPurchaser),
      optTruthy params.metadata⟩ <;> simp

/-- C2: checkPaymentStatus emits a state_changed event exactly when the
fetched state differs from the cached one (absent included), emits nothing
when the state is unchanged, so an immediate second call with the same
response emits no event and an observed transition yields exactly one
state_changed over the two calls; funds_locked and completed fire exactly on
the observed transition to FundsLocked and to Withdrawn. -/
theorem C2_state_change_suppression (st : ManagerState) (id : String) (r : PaymentRequest) :
    ((checkPaymentStatus st id (.ok r)).events.countP isStateChanged =
      if cachedState st id = r.onChainState then 0 else 1) ∧
    ((checkPaymentStatus (checkPaymentStatus st id (.ok r)).state id (.ok r)).events = []) ∧
    (cachedState st id ≠ r.onChainState →
      (checkPaymentStatus st id (.ok r)).events.countP isStateChanged +
        (checkPaymentStatus (checkPaymentStatus st id (.ok r)).state id
          (.ok r)).events.countP isStateChanged = 1) ∧
    ((checkPaymentStatus st id (.ok r)).events.countP isFundsLockedEvent =
      if cachedState st id ≠ r.onChainState ∧ r.onChainState = some .FundsLocked
      then 1 else 0) ∧
    ((checkPaymentStatus st id (.ok r)).events.countP isCompletedEvent =
      if cachedState st id ≠ r.onChainState ∧ r.onChainState = some .Withdrawn
      then 1 else 0) := by
  have hsecond :
      (checkPaymentStatus (checkPaymentStatus st id (.ok r)).state id (.ok r)).events = [] := by
    simp only [checkPaymentStatus, cachedState]
    simp [mapGet_mapSet_self]
  refine ⟨?_, hsecond, ?_, ?_, ?_⟩
  · simp only [checkPaymentStatus, cachedState]
    by_cases h : (mapGet st.pendingPayments id).bind (fun p => p.onChainState) = r.onChainState
    · simp [h]
    · simp only [h, if_false]
      split_ifs <;> simp [List.countP_cons, isStateChanged]
  · intro hne
    have h : ¬(mapGet st.pendingPayments id).bind (fun p => p.onChainState) = r.onChainState :=
      hne
    rw [hsecond]
    simp only [checkPaymentStatus, h, if_false]
    split_ifs <;> simp [List.countP_cons, isStateChanged]
  · by_cases h : (mapGet st.pendingPayments id).bind (fun p => p.onChainState) = r.onChainState
    · have hc : cachedState st id = r.onChainState := h
      simp only [checkPaymentStatus, h, if_true]
      simp [hc]
    · have hc : ¬(cachedState st id = r.onChainState) := h
      simp only [checkPaymentStatus, h, if_false]
      by_cases hfl : r.onChainState = some PaymentState.FundsLocked
      · rw [hfl] at hc
        simp [hfl, hc, List.countP_cons, isFundsLockedEvent]
      · by_cases hw : r.onChainState = some PaymentState.Withdrawn <;>
          simp [hfl, hw, hc, List.countP_cons, isFundsLockedEvent]
  · by_cases h : (mapGet st.pendingPayments id).bind (fun p => p.onChainState) = r.onChainState
    · have hc : cachedState st id = r.onChainState := h
      simp only [checkPaymentStatus, h, if_true]
      simp [hc]
    · have hc : ¬(cachedState st id = r.onChainState) := h
      simp only [checkPaymentStatus, h, if_false]
      by_cases hfl : r.onChainState = some PaymentState.FundsLocked
      · simp [hfl, hc, List.countP_cons, isCompletedEvent]
      · by_cases hw : r.onChainState = some PaymentState.Withdrawn
        · rw [hw] at hc
          simp [hfl, hw, hc, List.countP_cons, isCompletedEvent]
        · simp [hfl, hw, hc, List.countP_cons, isCompletedEvent]

/-- Witness: C2 at a concrete first observation of FundsLocked. -/
theorem C2_state_change_suppression_witness :
    (checkPaymentStatus mgr0 "idA" (.ok payA)).events.countP isStateChanged +
      (checkPaymentStatus (checkPaymentStatus mgr0 "idA" (.ok payA)).state "idA"
        (.ok payA)).events.countP isStateChanged = 1 :=
  (C2_state_change_suppression mgr0 "idA" payA).2.2.1 (by decide)

/-- A successful status check emits no monitor_error event. -/
theorem checkPaymentStatus_ok_no_monitor (st : ManagerState) (id : String) (r : PaymentRequest) :
    (checkPaymentStatus st id (.ok r)).events.filter isMonitorError = [] := by
  simp only [checkPaymentStatus]
  split_ifs <;> simp [isMonitorError]

/-- The store value of a successful status check at the checked key. -/
theorem checkPaymentStatus_ok_mapGet_self (st : ManagerState) (id : String)
    (r : PaymentRequest) :
    mapGet (checkPaymentStatus st id (.ok r)).state.pendingPayments id = some r := by
  simp only [checkPaymentStatus]
  exact mapGet_mapSet_self _ _ _

/-- The status check leaves every other key of the store unchanged. -/
theorem checkPaymentStatus_mapGet_ne (st : ManagerState) (id k : String)
    (resp : Except String PaymentRequest) (h : k ≠ id) :
    mapGet (checkPaymentStatus st id resp).state.pendingPayments k =
      mapGet st.pendingPayments k := by
  cases resp with
  | error e => rfl
  | ok r =>
      simp only [checkPaymentStatus]
      exact mapGet_mapSet_ne _ _ _ _ h

/-- One cycle step leaves every other key of the store unchanged. -/
theorem cycleStep_mapGet_ne (remote : String → Except String PaymentRequest)
    (st : ManagerState) (id k : String) (h : k ≠ id) :
    mapGet (cycleStep remote st id).1.pendingPayments k = mapGet st.pendingPayments k := by
  unfold cycleStep
  cases hm : mapGet st.pendingPayments id with
  | none => rfl
  | some p =>
      by_cases ht : isTerminal p.onChainState
      · simp [ht]
      · simp only [ht, Bool.false_eq_true, if_false]
        cases hr : remote id with
        | error e =>
            simp only [checkPaymentStatus]
        | ok r =>
            have := checkPaymentStatus_mapGet_ne st id k (.ok r) h
            simp only [checkPaymentStatus] at this ⊢
            exact this

/-- A cycle leaves keys outside the processed list unchanged. -/
theorem runCycle_mapGet_not_mem (remote : String → Except String PaymentRequest) :
    ∀ (ids : List String) (st : ManagerState) (k : String), k ∉ ids →
      mapGet (runCycle remote st ids).state.pendingPayments k = mapGet st.pendingPayments k := by
  intro ids
  induction ids with
  | nil => intro st k _; rfl
  | cons id rest ih =>
      intro st k hk
      have hne : k ≠ id := fun hc => hk (hc ▸ List.mem_cons_self id rest)
      have hrest : k ∉ rest := fun hc => hk (List.mem_cons_of_mem id hc)
      simp only [runCycle]
      rw [ih (cycleStep remote st id).1 k hrest]
      exact cycleStep_mapGet_ne remote st id k hne

/-- Characterization of one cycle step at the processed key, relative to a
reference store that agrees at the key. -/
theorem cycleStep_spec (remote : String → Except String PaymentRequest)
    (st st₀ : ManagerState) (id : String)
    (hid : mapGet st.pendingPayments id = mapGet st₀.pendingPayments id) :
    (cycleStep remote st id).2.2 = liveNonTerminal st₀ id ∧
    (cycleStep remote st id).2.1.filter isMonitorError = (cycleError st₀ remote id).toList ∧
    mapGet (cycleStep remote st id).1.pendingPayments id = cycleOutcome st₀ remote id := by
  unfold cycleStep liveNonTerminal cycleError cycleOutcome
  rw [hid]
  cases hm : mapGet st₀.pendingPayments id with
  | none => exact ⟨rfl, rfl, hid.trans hm⟩
  | some p =>
      by_cases ht : isTerminal p.onChainState
      · refine ⟨by simp [ht], by simp [ht], ?_⟩
        simp only [ht, if_true]
        exact hid.trans hm
      · simp only [ht, Bool.false_eq_true, if_false, Bool.not_false]
        cases hr : remote id with
        | error e =>
            refine ⟨rfl, ?_, ?_⟩
            · simp only [checkPaymentStatus]
              simp [isMonitorError]
            · simp only [checkPaymentStatus]
              exact hid.trans hm
        | ok r =>
            refine ⟨rfl, ?_, ?_⟩
            · have h₁ := checkPaymentStatus_ok_no_monitor st id r
              simp only [checkPaymentStatus] at h₁ ⊢
              simpa using h₁
            · have h₂ := checkPaymentStatus_ok_mapGet_self st id r
              simp only [checkPaymentStatus] at h₂ ⊢
              exact h₂

/-- Characterization of a whole polling cycle over distinct identifiers,
relative to a reference store that agrees on all of them: the refreshed
identifiers are exactly the live non-terminal ones, the monitor_error
events are exactly those of the failing live identifiers, and each
processed key ends at its expected value. -/
theorem runCycle_spec (remote : String → Except String PaymentRequest) (st₀ : ManagerState) :
    ∀ (ids : List String) (st : ManagerState), ids.Nodup →
      (∀ id ∈ ids, mapGet st.pendingPayments id = mapGet st₀.pendingPayments id) →
      (runCycle remote st ids).refreshed = ids.filter (fun id => liveNonTerminal st₀ id) ∧
      (runCycle remote st ids).events.filter isMonitorError =
        ids.filterMap (cycleError st₀ remote) ∧
      (∀ id ∈ ids, mapGet (runCycle remote st ids).state.pendingPayments id =
        cycleOutcome st₀ remote id) := by
  intro ids
  induction ids with
  | nil => intro st _ _; exact ⟨rfl, rfl, by intro id h; cases h⟩
  | cons id rest ih =>
      intro st hnd hmap
      have hidmem : id ∈ id :: rest := List.mem_cons_self id rest
      have hid : mapGet st.pendingPayments id = mapGet st₀.pendingPayments id := hmap id hidmem
      have hndr : rest.Nodup := (List.nodup_cons.mp hnd).2
      have hnmem : id ∉ rest := (List.nodup_cons.mp hnd).1
      obtain ⟨f1, f2, f3⟩ := cycleStep_spec remote st st₀ id hid
      have hmapr : ∀ k ∈ rest, mapGet (cycleStep remote st id).1.pendingPayments k =
          mapGet st₀.pendingPayments k := by
        intro k hk
        have hne : k ≠ id := fun hc => hnmem (hc ▸ hk)
        rw [cycleStep_mapGet_ne remote st id k hne]
        exact hmap k (List.mem_cons_of_mem id hk)
      obtain ⟨ih1, ih2, ih3⟩ := ih (cycleStep remote st id).1 hndr hmapr
      refine ⟨?_, ?_, ?_⟩
      · simp only [runCycle, List.filter_cons]
        rw [f1] at *
        cases hl : liveNonTerminal st₀ id <;> simp [hl, ih1, f1]
      · simp only [runCycle, List.filter_append]
        rw [f2, ih2, List.filterMap_cons]
        cases he : cycleError st₀ remote id <;> simp [he]
      · intro k hk
        rcases List.mem_cons.mp hk with hkid | hkr
        · subst hkid
          simp only [runCycle]
          rw [runCycle_mapGet_not_mem remote rest (cycleStep remote st k).1 k hnmem]
          exact f3
        · simp only [runCycle]
          exact ih3 k hkr

/-- C4: in a polling cycle, an entry whose cached state is terminal is never
refreshed and stays present, unchanged and queryable, while every
non-terminal entry of the store is refreshed in that cycle. -/
theorem C4_terminal_exclusion (st : ManagerState)
    (remote : String → Except String PaymentRequest) (id : String) (p : PaymentRequest)
    (hnd : (st.pendingPayments.map Prod.fst).Nodup)
    (hmem : getPayment st id = some p) (hterm : isTerminal p.onChainState = true) :
    id ∉ (monitorCycle st remote).refreshed ∧
    getPayment (monitorCycle st remote).state id = some p ∧
    (∀ id₂ p₂, getPayment st id₂ = some p₂ → isTerminal p₂.onChainState = false →
      id₂ ∈ (monitorCycle st remote).refreshed) := by
  obtain ⟨h1, _, h3⟩ := runCycle_spec remote st (st.pendingPayments.map Prod.fst) st hnd
    (fun _ _ => rfl)
  have hkey : id ∈ st.pendingPayments.map Prod.fst := mapGet_some_mem_fst _ _ _ hmem
  refine ⟨?_, ?_, ?_⟩
  · rw [show monitorCycle st remote = runCycle remote st (st.pendingPayments.map Prod.fst)
      from rfl, h1]
    intro hin
    have := (List.mem_filter.mp hin).2
    simp only [liveNonTerminal, show mapGet st.pendingPayments id = some p from hmem,
      hterm] at this
    simp at this
  · have := h3 id hkey
    rw [show monitorCycle st remote = runCycle remote st (st.pendingPayments.map Prod.fst)
      from rfl]
    rw [show getPayment (runCycle remote st (st.pendingPayments.map Prod.fst)).state id =
      mapGet (runCycle remote st (st.pendingPayments.map Prod.fst)).state.pendingPayments id
      from rfl, this]
    simp only [cycleOutcome, show mapGet st.pendingPayments id = some p from hmem, hterm,
      if_true]
  · intro id₂ p₂ hmem₂ hnt₂
    have hkey₂ : id₂ ∈ st.pendingPayments.map Prod.fst := mapGet_some_mem_fst _ _ _ hmem₂
    rw [show monitorCycle st remote = runCycle remote st (st.pendingPayments.map Prod.fst)
      from rfl, h1]
    refine List.mem_filter.mpr ⟨hkey₂, ?_⟩
    simp only [liveNonTerminal, show mapGet st.pendingPayments id₂ = some p₂ from hmem₂, hnt₂]
    simp

/-- Witness: C4 at a concrete store with one live and one terminal entry. -/
theorem C4_terminal_exclusion_witness :
    "idT" ∉ (monitorCycle mgrT remoteFailB).refreshed ∧
    getPayment (monitorCycle mgrT remoteFailB).state "idT" = some payT ∧
    (∀ id₂ p₂, getPayment mgrT id₂ = some p₂ → isTerminal p₂.onChainState = false →
      id₂ ∈ (monitorCycle mgrT remoteFailB).refreshed) :=
  C4_terminal_exclusion mgrT remoteFailB "idT" payT (by decide) (by decide) (by decide)

/-- A filterMap over distinct elements where exactly one maps to a value
yields that single value. -/
theorem filterMap_unique {α β : Type} (f : α → Option β) :
    ∀ (l : List α) (a : α) (b : β), l.Nodup → a ∈ l → f a = some b →
      (∀ x ∈ l, x ≠ a → f x = none) → l.filterMap f = [b] := by
  intro l
  induction l with
  | nil => intro a b _ hmem; cases hmem
  | cons x rest ih =>
      intro a b hnd hmem hfa hrest
      rcases List.mem_cons.mp hmem with hxa | hmemr
      · subst hxa
        rw [List.filterMap_cons, hfa]
        have hnil : rest.filterMap f = [] := by
          rw [List.filterMap_eq_nil_iff]
          intro y hy
          exact hrest y (List.mem_cons_of_mem _ hy)
            (fun hc => (List.nodup_cons.mp hnd).1 (hc ▸ hy))
        rw [hnil]
      · have hxa : x ≠ a := fun hc => (List.nodup_cons.mp hnd).1 (hc ▸ hmemr)
        rw [List.filterMap_cons, hrest x (List.mem_cons_self x rest) hxa]
        exact ih a b (List.nodup_cons.mp hnd).2 hmemr hfa
          (fun y hy hne => hrest y (List.mem_cons_of_mem x hy) hne)

/-- C5: within one polling cycle, the monitor_error events are exactly those
of the live entries whose remote call fails, every live entry is still
refreshed, a live entry with a successful remote call ends updated, and
when exactly one live entry fails the cycle emits exactly one monitor_error
event, carrying that identifier and its cause. -/
theorem C5_partial_failure_isolation (st : ManagerState)
    (remote : String → Except String PaymentRequest)
    (hnd : (st.pendingPayments.map Prod.fst).Nodup) :
    ((monitorCycle st remote).events.filter isMonitorError =
      (st.pendingPayments.map Prod.fst).filterMap (cycleError st remote)) ∧
    (∀ id p, getPayment st id = some p → isTerminal p.onChainState = false →
      id ∈ (monitorCycle st remote).refreshed) ∧
    (∀ id p r, getPayment st id = some p → isTerminal p.onChainState = false →
      remote id = .ok r → getPayment (monitorCycle st remote).state id = some r) ∧
    (∀ id e p, getPayment st id = some p → isTerminal p.onChainState = false →
      remote id = .error e →
      (∀ id₂ ∈ st.pendingPayments.map Prod.fst, id₂ ≠ id →
        liveNonTerminal st id₂ = true → (remote id₂).isOk = true) →
      (monitorCycle st remote).events.filter isMonitorError =
        [.monitor_error id (.transport e)]) := by
  obtain ⟨h1, h2, h3⟩ := runCycle_spec remote st (st.pendingPayments.map Prod.fst) st hnd
    (fun _ _ => rfl)
  have hmc : monitorCycle st remote = runCycle remote st (st.pendingPayments.map Prod.fst) :=
    rfl
  refine ⟨by rw [hmc, h2], ?_, ?_, ?_⟩
  · intro id p hmem hnt
    rw [hmc, h1]
    refine List.mem_filter.mpr ⟨mapGet_some_mem_fst _ _ _ hmem, ?_⟩
    simp only [liveNonTerminal, show mapGet st.pendingPayments id = some p from hmem, hnt]
    simp
  · intro id p r hmem hnt hok
    have hkey : id ∈ st.pendingPayments.map Prod.fst := mapGet_some_mem_fst _ _ _ hmem
    have := h3 id hkey
    rw [hmc]
    rw [show getPayment (runCycle remote st (st.pendingPayments.map Prod.fst)).state id =
      mapGet (runCycle remote st (st.pendingPayments.map Prod.fst)).state.pendingPayments id
      from rfl, this]
    simp only [cycleOutcome, show mapGet st.pendingPayments id = some p from hmem, hnt, hok]
    simp
  · intro id e p hmem hnt herr honly
    rw [hmc, h2]
    refine filterMap_unique (cycleError st remote) (st.pendingPayments.map Prod.fst) id
      (.monitor_error id (.transport e)) hnd (mapGet_some_mem_fst _ _ _ hmem) ?_ ?_
    · simp only [cycleError, show mapGet st.pendingPayments id = some p from hmem, hnt, herr]
      simp
    · intro id₂ hid₂ hne
      cases hm₂ : mapGet st.pendingPayments id₂ with
      | none => simp [cycleError, hm₂]
      | some p₂ =>
          by_cases ht₂ : isTerminal p₂.onChainState
          · simp [cycleError, hm₂, ht₂]
          · have hlive : liveNonTerminal st id₂ = true := by
              simp [liveNonTerminal, hm₂, ht₂]
            have hok₂ := honly id₂ hid₂ hne hlive
            cases hr₂ : remote id₂ with
            | error e₂ => rw [hr₂] at hok₂; simp [Except.isOk, Except.toBool] at hok₂
            | ok r₂ => simp [cycleError, hm₂, ht₂, hr₂]

/-- Witness: C5 at a concrete store with three live entries where the remote
call for the second fails: the first and third are refreshed and exactly
one monitor_error event fires. -/
theorem C5_partial_failure_isolation_witness :
    (monitorCycle mgr3 remoteFailB).events.filter isMonitorError =
      [.monitor_error "idB" (.transport "boom")] ∧
    "idA" ∈ (monitorCycle mgr3 remoteFailB).refreshed ∧
    "idC" ∈ (monitorCycle mgr3 remoteFailB).refreshed :=
  ⟨(C5_partial_failure_isolation mgr3 remoteFailB (by decide)).2.2.2 "idB" "boom" payB
      (by decide) (by decide) (by decide) (by decide),
   (C5_partial_failure_isolation mgr3 remoteFailB (by decide)).2.1 "idA" payA
      (by decide) (by decide),
   (C5_partial_failure_isolation mgr3 remoteFailB (by decide)).2.1 "idC" payC
      (by decide) (by decide)⟩

/-- Two lists of entries that are permutations of each other, both sorted by
key, with distinct keys, are equal. -/
theorem sorted_entryLe_nodup_eq :
    ∀ (l₁ l₂ : List (String × String)), l₁.Perm l₂ → l₁.Sorted entryLe →
      l₂.Sorted entryLe → (l₁.map Prod.fst).Nodup → l₁ = l₂ := by
  intro l₁
  induction l₁ with
  | nil => intro l₂ hp _ _ _; exact hp.nil_eq
  | cons a l₁ ih =>
      intro l₂ hp hs₁ hs₂ hnd
      cases l₂ with
      | nil => exact absurd hp.symm.nil_eq (by simp)
      | cons b l₂ =>
          have hab : a = b := by
            by_contra hne
            have hamem : a ∈ b :: l₂ := hp.subset (List.mem_cons_self a _)
            have hbmem : b ∈ a :: l₁ := hp.symm.subset (List.mem_cons_self b _)
            rcases List.mem_cons.mp hamem with h₁ | h₁
            · exact hne h₁
            rcases List.mem_cons.mp hbmem with h₂ | h₂
            · exact hne h₂.symm
            have hba : entryLe b a := (List.sorted_cons.mp hs₂).1 a h₁
            have hab₂ : entryLe a b := (List.sorted_cons.mp hs₁).1 b h₂
            have hkey : a.1 = b.1 := le_antisymm hab₂ hba
            have hout : a.1 ∉ l₁.map Prod.fst :=
              (List.nodup_cons.mp (by simpa using hnd)).1
            exact hout (hkey ▸ List.mem_map_of_mem Prod.fst h₂)
          subst hab
          have hrec := ih l₂ hp.cons_inv (List.sorted_cons.mp hs₁).2
            (List.sorted_cons.mp hs₂).2 (List.nodup_cons.mp (by simpa using hnd)).2
          rw [hrec]

/-- The key sort is invariant under permutation of entries with distinct
keys. -/
theorem sortEntries_perm_eq (l₁ l₂ : List (String × String)) (hp : l₁.Perm l₂)
    (hnd : (l₁.map Prod.fst).Nodup) : sortEntries l₁ = sortEntries l₂ := by
  have hs₁ : (sortEntries l₁).Sorted entryLe := List.sorted_insertionSort entryLe l₁
  have hs₂ : (sortEntries l₂).Sorted entryLe := List.sorted_insertionSort entryLe l₂
  have hp₁ : (sortEntries l₁).Perm l₁ := List.perm_insertionSort entryLe l₁
  have hp₂ : (sortEntries l₂).Perm l₂ := List.perm_insertionSort entryLe l₂
  have hndkeys : ((sortEntries l₁).map Prod.fst).Nodup :=
    ((hp₁.map Prod.fst).nodup_iff).mpr hnd
  exact sorted_entryLe_nodup_eq _ _ (hp₁.trans (hp.trans hp₂.symm)) hs₁ hs₂ hndkeys

/-- Entry serialization is a pointwise map. -/
theorem serializeEntries_eq_map (l : List (String × Json)) :
    serializeEntries l = l.map (fun kv => (kv.1, serializeJson kv.2)) := by
  induction l with
  | nil => rfl
  | cons kv rest ih =>
      obtain ⟨k, v⟩ := kv
      simp [serializeEntries, ih]

/-- Entry serialization keeps the keys. -/
theorem serializeEntries_keys (l : List (String × Json)) :
    (serializeEntries l).map Prod.fst = l.map Prod.fst := by
  rw [serializeEntries_eq_map, List.map_map]
  rfl

/-- Canonical serialization of an object is invariant under permutation of
its entries when the keys are distinct. -/
theorem serializeJson_obj_perm (l₁ l₂ : List (String × Json)) (hp : l₁.Perm l₂)
    (hnd : (l₁.map Prod.fst).Nodup) :
    serializeJson (Json.obj l₁) = serializeJson (Json.obj l₂) := by
  have hpe : (serializeEntries l₁).Perm (serializeEntries l₂) := by
    rw [serializeEntries_eq_map, serializeEntries_eq_map]
    exact hp.map _
  have hnde : ((serializeEntries l₁).map Prod.fst).Nodup := by
    rw [serializeEntries_keys]
    exact hnd
  have hsort : sortEntries (serializeEntries l₁) = sortEntries (serializeEntries l₂) :=
    sortEntries_perm_eq _ _ hpe hnde
  simp only [serializeJson]
  rw [hsort]

/-- Length of a two-characters-per-byte expansion. -/
theorem flatMap_pair_length (f g : Nat → Char) (bs : List Nat) :
    (bs.flatMap fun b => [f b, g b]).length = 2 * bs.length := by
  induction bs with
  | nil => rfl
  | cons b rest ih =>
      simp only [List.flatMap_cons, List.length_append, ih, List.length_cons,
        List.length_nil]
      omega

/-- The SHA-256 digest always has 32 bytes. -/
theorem sha256_length (msg : List Nat) : (sha256 msg).length = 32 := by
  simp [sha256, wordBytes]

/-- The hex rendering has two characters per byte. -/
theorem toHex_length (bs : List Nat) : (toHex bs).length = 2 * bs.length := by
  have h : (toHex bs).length =
      (bs.flatMap fun b => [hexDigitChar (b / 16), hexDigitChar (b % 16)]).length := rfl
  rw [h, flatMap_pair_length]

/-- The canonical hash always has 64 characters. -/
theorem masumiHash_length (P : Json) (S : String) : (masumiHash P S).length = 64 := by
  unfold masumiHash
  rw [toHex_length, sha256_length]

/-- The hex digit characters are lowercase hexadecimal. -/
theorem hexDigitChar_lower (n : Nat) : IsLowerHexChar (hexDigitChar n) := by
  unfold hexDigitChar
  rw [List.getD_eq_getElem?_getD]
  cases h : hexDigits[n]? with
  | none => simp [h]; decide
  | some c =>
      have hmem : c ∈ hexDigits := List.getElem?_mem h
      have hall : ∀ x ∈ hexDigits, IsLowerHexChar x := by decide
      simp only [h, Option.getD_some]
      exact hall c hmem

/-- Every character of a hex rendering is lowercase hexadecimal. -/
theorem toHex_chars_lower (bs : List Nat) : ∀ c ∈ (toHex bs).data, IsLowerHexChar c := by
  have h : (toHex bs).data =
      bs.flatMap fun b => [hexDigitChar (b / 16), hexDigitChar (b % 16)] := rfl
  rw [h]
  intro c hc
  rw [List.mem_flatMap] at hc
  obtain ⟨b, _, hcb⟩ := hc
  simp only [List.mem_cons, List.not_mem_nil, or_false] at hcb
  rcases hcb with rfl | rfl <;> exact hexDigitChar_lower _

/-- The canonical hash of an object is invariant under permutation of its
entries when the keys are distinct. -/
theorem masumiHash_obj_perm (l₁ l₂ : List (String × Json)) (S : String) (hp : l₁.Perm l₂)
    (hnd : (l₁.map Prod.fst).Nodup) :
    masumiHash (Json.obj l₁) S = masumiHash (Json.obj l₂) S := by
  unfold masumiHash
  have h : canonicalPayloadString (Json.obj l₁) = canonicalPayloadString (Json.obj l₂) := by
    simp only [canonicalPayloadString]
    exact serializeJson_obj_perm l₁ l₂ hp hnd
  rw [h]

/-- C1: the canonical hash is a pure function returning the same digest on
every invocation, the digest always has 64 lowercase hexadecimal
characters, for mapping payloads it is independent of key insertion order
(only the sorted order matters), and it is exactly the hash used by
createPaymentRequest (createMasumiInputHash) and by submitResult
(createMasumiOutputHash). -/
theorem C1_hash_canonical_deterministic (P : Json) (S : String) :
    masumiHash P S = masumiHash P S ∧
    (masumiHash P S).length = 64 ∧
    (∀ c ∈ (masumiHash P S).data, IsLowerHexChar c) ∧
    (∀ l₁ l₂ : List (String × Json), l₁.Perm l₂ → (l₁.map Prod.fst).Nodup →
      masumiHash (Json.obj l₁) S = masumiHash (Json.obj l₂) S) ∧
    (∀ d s, createMasumiInputHash d s = masumiHash d s) ∧
    (∀ o s, createMasumiOutputHash o s = masumiHash (Json.str o) s) :=
  ⟨rfl, masumiHash_length P S, toHex_chars_lower _,
   fun l₁ l₂ hp hnd => masumiHash_obj_perm l₁ l₂ S hp hnd,
   fun _ _ => rfl, fun _ _ => rfl⟩

/-- Witness: C1 at a concrete two-key object given in both insertion
orders. -/
theorem C1_hash_canonical_deterministic_witness :
    masumiHash (Json.obj [("b", Json.num 1), ("a", Json.num 2)]) "buyer1" =
      masumiHash (Json.obj [("a", Json.num 2), ("b", Json.num 1)]) "buyer1" :=
  (C1_hash_canonical_deterministic Json.null "buyer1").2.2.2.1
    [("b", Json.num 1), ("a", Json.num 2)] [("a", Json.num 2), ("b", Json.num 1)]
    (List.Perm.swap ("a", Json.num 2) ("b", Json.num 1) []) (by decide)

/-- Witness: C8 with payByTime omitted (defaulted to now plus 12 hours) and
submitResultTime supplied (used unchanged). -/
theorem C8_deadline_defaults_witness :
    (createPaymentRequest mgr0 paramsW 1000 (fun _ => Except.ok payA)).calls =
      [.createPayment
        ⟨"agent1", "Preprod", "Web3CardanoV1", 1000 + 12 * 60 * 60 * 1000, 99, "buyer1",
         none, none⟩] := by
  have h := (C8_deadline_defaults mgr0 paramsW 1000 (fun _ => Except.ok payA) (by decide)).1
  rw [h]
  decide
